import Mathlib

/-!
Verification development for the `nanobot` repository (Python).

Shallow embedding of the three source modules the claims concern:

* `src/nanobot/agent/messages.py` — the `AgentMessage` data model, its
  LLM-facing projection `llm_dict`, the lifting `from_dict`, and the
  artifact-window helpers `get_artifacts` / `get_latest_artifacts`.
* `src/nanobot/agent/steering.py` — the per-session `InterruptionChecker`
  FIFO queue with `signal` / `check` / `drain_all` / `has_pending`.
* `src/nanobot/bus/queue.py` — the `MessageBus`: two unbounded FIFO
  queues (inbound / outbound) plus the stream-callback and
  stream-completion registries with `register_stream_callback`,
  `get_stream_callback`, `mark_stream_done` and `wait_stream_done`.

Python dicts with string keys are embedded as association lists
(`List (String × β)`) with insertion-order-preserving assignment
(`setEntry`), lookup (`lookupEntry`) and removal (`eraseEntry`),
mirroring `d[k] = v`, `d.get(k)` and `d.pop(k, None)`.
`asyncio.Queue` is embedded as a Lean list with the front at the head:
`put` appends at the back, `get_nowait` pops the head.
`asyncio.Event` is embedded as a `Bool` (set / not set); the act of the
event being set while a waiter is blocked is passed to `waitStreamDone`
as an explicit oracle argument `signaled`.
-/

namespace Nanobot

/-! ### Association-list model of Python string-keyed dicts -/

/-- Lookup `d.get(k)` in an association list. -/
def lookupEntry {β : Type} (l : List (String × β)) (k : String) : Option β :=
  match l with
  | [] => none
  | (k', v) :: rest => if k' = k then some v else lookupEntry rest k

/-- Assignment `d[k] = v`: replace the first binding of `k` in place, or
append a fresh binding at the end (Python dicts preserve insertion order). -/
def setEntry {β : Type} (l : List (String × β)) (k : String) (v : β) :
    List (String × β) :=
  match l with
  | [] => [(k, v)]
  | (k', v') :: rest =>
      if k' = k then (k, v) :: rest else (k', v') :: setEntry rest k v

/-- Removal `d.pop(k, None)` (ignoring the returned value). -/
def eraseEntry {β : Type} (l : List (String × β)) (k : String) :
    List (String × β) :=
  l.filter (fun p => p.1 ≠ k)

/-- Whether the dict contains key `k` (`k in d`). -/
def containsKey {β : Type} (l : List (String × β)) (k : String) : Bool :=
  (lookupEntry l k).isSome

/-! ### The message data model (`src/nanobot/agent/messages.py`) -/

/-- `MessageType(str, Enum)` from `messages.py`. -/
inductive MessageType where
  | TEXT
  | TOOL_CALL
  | TOOL_RESULT
  | ARTIFACT
  | USER_ATTACHMENT
  | SYSTEM
  deriving DecidableEq, Repr

/-- A tool-call entry (`dict[str, Any]` in the source). The claims never
inspect the inside of a tool call, so it is carried as an opaque payload. -/
structure ToolCall where
  payload : String
  deriving DecidableEq, Repr

/-- A Python value as it appears inside a plain LLM message dict. `nil`
stands for Python `None`. Content is `Any` in the source; the claims treat
it opaquely, so the string and `None` cases suffice. -/
inductive DVal where
  | str (s : String)
  | nil
  | toolCallList (tcs : List ToolCall)
  deriving DecidableEq, Repr

/-- `ArtifactInfo` dataclass. The source gives `id` a random default
(`uuid4().hex[:12]`); here it is an ordinary field. -/
structure ArtifactInfo where
  id : String
  action : String := "create"
  filename : Option String := none
  mime_type : Option String := none
  created_by_tool_call_id : Option String := none
  deriving DecidableEq, Repr

/-- The `AgentMessage` dataclass: the LLM-compatible payload plus
application-layer metadata (artifact, tags, metadata dict). -/
structure AgentMessage where
  role : String
  content : DVal
  msg_type : MessageType := MessageType.TEXT
  metadata : List (String × DVal) := []
  tool_calls : Option (List ToolCall) := none
  tool_call_id : Option String := none
  tool_name : Option String := none
  reasoning_content : Option String := none
  artifact : Option ArtifactInfo := none
  tags : List String := []
  deriving DecidableEq, Repr

/-- Python truthiness of an `Optional[list]`: `None` and `[]` are falsy. -/
def optListTruthy {α : Type} : Option (List α) → Bool
  | some (_ :: _) => true
  | _ => false

/-- Python truthiness of an `Optional[str]`: `None` and `""` are falsy. -/
def optStrTruthy : Option String → Bool
  | some s => s ≠ ""
  | none => false

/-- `AgentMessage.llm_dict`: the LLM-facing projection, built as the source
builds it — start from `{"role": ..., "content": ...}` and append the
optional keys guarded exactly as in the code (`if self.tool_calls:`,
`if self.tool_call_id:`, `if self.tool_name:`,
`if self.reasoning_content is not None:`). -/
def AgentMessage.llm_dict (m : AgentMessage) : List (String × DVal) :=
  [("role", DVal.str m.role), ("content", m.content)]
    ++ (if optListTruthy m.tool_calls then
          [("tool_calls", DVal.toolCallList (m.tool_calls.getD []))]
        else [])
    ++ (if optStrTruthy m.tool_call_id then
          [("tool_call_id", DVal.str (m.tool_call_id.getD ""))]
        else [])
    ++ (if optStrTruthy m.tool_name then
          [("name", DVal.str (m.tool_name.getD ""))]
        else [])
    ++ (match m.reasoning_content with
        | some rc => [("reasoning_content", DVal.str rc)]
        | none => [])

/-- A plain LLM dict that contains a `"role"` key, as consumed by
`AgentMessage.from_dict` (which reads `d["role"]` and would raise without
it). Each other field holds the result of `d.get(...)`: `none` stands for
"key absent or value `None`". `tool_calls = some []` is a present-but-empty
list. -/
structure LLMDict where
  role : String
  content : DVal := DVal.nil
  tool_calls : Option (List ToolCall) := none
  tool_call_id : Option String := none
  name : Option String := none
  reasoning_content : Option String := none
  deriving DecidableEq, Repr

/-- `AgentMessage.from_dict`: lift a plain LLM dict. The `msg_type`
inference follows the source order: `role == "tool"` first, then truthy
`tool_calls`, then `role == "system"`, else TEXT. -/
def AgentMessage.from_dict (d : LLMDict) : AgentMessage :=
  let mt : MessageType :=
    if d.role = "tool" then MessageType.TOOL_RESULT
    else if optListTruthy d.tool_calls then MessageType.TOOL_CALL
    else if d.role = "system" then MessageType.SYSTEM
    else MessageType.TEXT
  { role := d.role
    content := d.content
    msg_type := mt
    tool_calls := d.tool_calls
    tool_call_id := d.tool_call_id
    tool_name := d.name
    reasoning_content := d.reasoning_content }

/-- `AgentMessage.get_artifacts`: the messages carrying non-null artifact
info, in original order. -/
def AgentMessage.get_artifacts (messages : List AgentMessage) :
    List AgentMessage :=
  messages.filter (fun m => m.artifact.isSome)

/-- `AgentMessage.get_latest_artifacts`: Python `get_artifacts(messages)[-n:]`.
For `n ≥ 1` the slice `[-n:]` keeps the last `n` elements (all of them when
fewer exist); for `n = 0` the slice `[-0:]` is `[0:]`, the whole list. -/
def AgentMessage.get_latest_artifacts (messages : List AgentMessage)
    (n : Nat := 3) : List AgentMessage :=
  let a := AgentMessage.get_artifacts messages
  if n = 0 then a else a.drop (a.length - n)

/-- Modelled from the spec: the amended shape-inference rule for
`msg_type` — role `"tool"` takes precedence and yields TOOL_RESULT; else a
non-empty `tool_calls` yields TOOL_CALL; else role `"system"` yields
SYSTEM; else TEXT. Stated from the (amended) spec wording, to be compared
with `AgentMessage.from_dict`. -/
def specInferredMsgType (d : LLMDict) : MessageType :=
  if d.role = "tool" then MessageType.TOOL_RESULT
  else if optListTruthy d.tool_calls then MessageType.TOOL_CALL
  else if d.role = "system" then MessageType.SYSTEM
  else MessageType.TEXT

/-! ### Steering (`src/nanobot/agent/steering.py`) -/

/-- Modelled from the spec: `InboundMessage` lives in `nanobot/bus/events.py`,
which is not among the source files; the spec treats it as an opaque inbound
payload whose `content` is text. -/
structure InboundMessage where
  content : String
  deriving DecidableEq, Repr

/-- Modelled from the spec: `OutboundMessage` from `nanobot/bus/events.py`
(not among the source files), an opaque outbound payload. -/
structure OutboundMessage where
  content : String
  deriving DecidableEq, Repr

/-- `InterruptionChecker`: its state is the `asyncio.Queue` contents, front
at the head of the list. -/
structure InterruptionChecker where
  queue : List InboundMessage
  deriving DecidableEq, Repr

/-- A freshly constructed checker: empty queue. -/
def InterruptionChecker.init : InterruptionChecker := ⟨[]⟩

/-- `InterruptionChecker.signal`: `await self._queue.put(msg)` on an
unbounded queue — append at the back (the log line carries no state). -/
def InterruptionChecker.signal (c : InterruptionChecker)
    (msg : InboundMessage) : InterruptionChecker :=
  ⟨c.queue ++ [msg]⟩

/-- `InterruptionChecker.check`: `self._queue.get_nowait()` inside
`try/except QueueEmpty`. On an empty queue it returns `None` and leaves the
state; otherwise it returns the head and the queue loses it. -/
def InterruptionChecker.check (c : InterruptionChecker) :
    Option InboundMessage × InterruptionChecker :=
  match c.queue with
  | [] => (none, c)
  | m :: rest => (some m, ⟨rest⟩)

/-- `InterruptionChecker.drain_all`: loop `get_nowait()` until
`QueueEmpty` — returns everything in FIFO order and empties the queue. -/
def InterruptionChecker.drain_all (c : InterruptionChecker) :
    List InboundMessage × InterruptionChecker :=
  (c.queue, ⟨[]⟩)

/-- `InterruptionChecker.has_pending`: `not self._queue.empty()`. -/
def InterruptionChecker.has_pending (c : InterruptionChecker) : Bool :=
  !c.queue.isEmpty

/-! ### Message bus (`src/nanobot/bus/queue.py`) -/

/-- `MessageBus` state: two FIFO queues (front at head) and the two
stream registries. Stream callbacks are opaque values, carried as `Nat`
identifiers (the claims never call them). -/
structure MessageBus where
  inbound : List InboundMessage
  outbound : List OutboundMessage
  streamCallbacks : List (String × Nat)
  streamDoneEvents : List (String × Bool)
  deriving DecidableEq, Repr

/-- `MessageBus.__init__`: empty queues, empty registries. -/
def MessageBus.init : MessageBus := ⟨[], [], [], []⟩

/-- `register_stream_callback`: store the callback and a fresh (unset)
`asyncio.Event` under the id. -/
def MessageBus.register_stream_callback (b : MessageBus) (stream_id : String)
    (callback : Nat) : MessageBus :=
  { b with
    streamCallbacks := setEntry b.streamCallbacks stream_id callback
    streamDoneEvents := setEntry b.streamDoneEvents stream_id false }

/-- `get_stream_callback`: `self._stream_callbacks.pop(stream_id, None)` —
return and remove the callback (one-time use). -/
def MessageBus.get_stream_callback (b : MessageBus) (stream_id : String) :
    Option Nat × MessageBus :=
  (lookupEntry b.streamCallbacks stream_id,
   { b with streamCallbacks := eraseEntry b.streamCallbacks stream_id })

/-- `mark_stream_done`: set the event if the id is registered, else do
nothing. The registry entry is NOT removed. -/
def MessageBus.mark_stream_done (b : MessageBus) (stream_id : String) :
    MessageBus :=
  if containsKey b.streamDoneEvents stream_id then
    { b with streamDoneEvents := setEntry b.streamDoneEvents stream_id true }
  else b

/-- `wait_stream_done`: if no event is registered for the id, return `True`
at once with the state untouched (the `finally` of the `try` never runs).
Otherwise wait up to the timeout: the boolean result is `True` when the
event is already set or gets set before the timeout (the oracle argument
`signaled`), `False` on timeout; either way the `finally` pops the entry. -/
def MessageBus.wait_stream_done (b : MessageBus) (stream_id : String)
    (signaled : Bool) : Bool × MessageBus :=
  match lookupEntry b.streamDoneEvents stream_id with
  | none => (true, b)
  | some isSet =>
      ((isSet || signaled),
       { b with streamDoneEvents := eraseEntry b.streamDoneEvents stream_id })

/-- `publish_inbound`: `await self.inbound.put(msg)` — append. -/
def MessageBus.publish_inbound (b : MessageBus) (msg : InboundMessage) :
    MessageBus :=
  { b with inbound := b.inbound ++ [msg] }

/-- `consume_inbound`: `await self.inbound.get()` — pops the head; `none`
stands for "suspends until a message is available" (empty queue). -/
def MessageBus.consume_inbound (b : MessageBus) :
    Option (InboundMessage × MessageBus) :=
  match b.inbound with
  | [] => none
  | m :: rest => some (m, { b with inbound := rest })

/-- `publish_outbound`: append to the outbound queue. -/
def MessageBus.publish_outbound (b : MessageBus) (msg : OutboundMessage) :
    MessageBus :=
  { b with outbound := b.outbound ++ [msg] }

/-- `consume_outbound`: pop the head of the outbound queue, `none` when it
would suspend. -/
def MessageBus.consume_outbound (b : MessageBus) :
    Option (OutboundMessage × MessageBus) :=
  match b.outbound with
  | [] => none
  | m :: rest => some (m, { b with outbound := rest })

/-- Publish a whole list to the inbound queue, in order. -/
def MessageBus.publishInboundAll (b : MessageBus)
    (msgs : List InboundMessage) : MessageBus :=
  msgs.foldl MessageBus.publish_inbound b

/-- Publish a whole list to the outbound queue, in order. -/
def MessageBus.publishOutboundAll (b : MessageBus)
    (msgs : List OutboundMessage) : MessageBus :=
  msgs.foldl MessageBus.publish_outbound b

/-- Perform `n` successive `consume_inbound` calls, collecting the messages
in consumption order (stopping early if a consume would suspend). -/
def MessageBus.consumeInboundN : Nat → MessageBus →
    List InboundMessage × MessageBus
  | 0, b => ([], b)
  | n + 1, b =>
      match b.consume_inbound with
      | none => ([], b)
      | some (m, b') =>
          let r := MessageBus.consumeInboundN n b'
          (m :: r.1, r.2)

/-- Perform `n` successive `consume_outbound` calls, collecting the
messages in consumption order. -/
def MessageBus.consumeOutboundN : Nat → MessageBus →
    List OutboundMessage × MessageBus
  | 0, b => ([], b)
  | n + 1, b =>
      match b.consume_outbound with
      | none => ([], b)
      | some (m, b') =>
          let r := MessageBus.consumeOutboundN n b'
          (m :: r.1, r.2)

/-! ### Traces of registry operations (for the lifecycle claim)

A trace of the four stream-registry operations. `wait` carries the oracle
for whether the event was signaled before the timeout. -/

/-- One call into the stream registries of the bus. -/
inductive BusOp where
  | register (stream_id : String) (callback : Nat)
  | getCb (stream_id : String)
  | mark (stream_id : String)
  | wait (stream_id : String) (signaled : Bool)
  deriving DecidableEq, Repr

/-- Apply one registry call to the bus state. -/
def busStep (b : MessageBus) (op : BusOp) : MessageBus :=
  match op with
  | BusOp.register id cb => b.register_stream_callback id cb
  | BusOp.getCb id => (b.get_stream_callback id).2
  | BusOp.mark id => b.mark_stream_done id
  | BusOp.wait id signaled => (b.wait_stream_done id signaled).2

/-- Run a trace of registry calls from a given state. -/
def runBusOps (b : MessageBus) (ops : List BusOp) : MessageBus :=
  ops.foldl busStep b

/-- Tracks, along a trace, whether a completion-signal entry for `id` is
live: `register id` makes it live, `wait id` removes it, the other calls
leave it. Starting value `b0` is whether it was live before the trace. -/
def eventLiveAfter (b0 : Bool) (ops : List BusOp) (id : String) : Bool :=
  ops.foldl
    (fun acc op =>
      match op with
      | BusOp.register id' _ => if id' = id then true else acc
      | BusOp.wait id' _ => if id' = id then false else acc
      | _ => acc)
    b0

/-- The 5-message scenario from the spec: artifacts at indices 1, 3, 4. -/
def exampleMessages : List AgentMessage :=
  [ { role := "user", content := DVal.str "m0" },
    { role := "assistant", content := DVal.str "m1",
      artifact := some { id := "a1" } },
    { role := "user", content := DVal.str "m2" },
    { role := "assistant", content := DVal.str "m3",
      artifact := some { id := "a3" } },
    { role := "assistant", content := DVal.str "m4",
      artifact := some { id := "a4" } } ]

/-- The keys an LLM API schema understands, per the spec's invariant for
the LLM-facing projection. -/
def llmAllowedKeys : List String :=
  ["role", "content", "tool_calls", "tool_call_id", "name",
   "reasoning_content"]

/-! ### Helper lemmas on the dict model -/

lemma lookupEntry_setEntry_self {β : Type} (l : List (String × β))
    (k : String) (v : β) : lookupEntry (setEntry l k v) k = some v := by
  induction l with
  | nil => simp [setEntry, lookupEntry]
  | cons p rest ih =>
      by_cases h : p.1 = k
      · simp [setEntry, h, lookupEntry]
      · simp [setEntry, h, lookupEntry, ih]

lemma lookupEntry_setEntry_ne {β : Type} (l : List (String × β))
    (k k' : String) (v : β) (h : k ≠ k') :
    lookupEntry (setEntry l k v) k' = lookupEntry l k' := by
  induction l with
  | nil => simp [setEntry, lookupEntry, h]
  | cons p rest ih =>
      by_cases hp : p.1 = k
      · simp [setEntry, hp, lookupEntry, h]
      · simp [setEntry, hp, lookupEntry, ih]

lemma lookupEntry_eraseEntry_self {β : Type} (l : List (String × β))
    (k : String) : lookupEntry (eraseEntry l k) k = none := by
  induction l with
  | nil => simp [eraseEntry, lookupEntry]
  | cons p rest ih =>
      by_cases h : p.1 = k
      · simpa [eraseEntry, h, lookupEntry] using ih
      · simpa [eraseEntry, h, lookupEntry] using ih

lemma lookupEntry_eraseEntry_ne {β : Type} (l : List (String × β))
    (k k' : String) (h : k ≠ k') :
    lookupEntry (eraseEntry l k) k' = lookupEntry l k' := by
  induction l with
  | nil => simp [eraseEntry, lookupEntry]
  | cons p rest ih =>
      obtain ⟨pk, pv⟩ := p
      by_cases hp : pk = k
      · subst hp
        simpa [eraseEntry, lookupEntry, h] using ih
      · by_cases hq : pk = k'
        · subst hq
          simp [eraseEntry, lookupEntry, hp]
        · simpa [eraseEntry, lookupEntry, hp, hq] using ih

lemma setEntry_setEntry_self {β : Type} (l : List (String × β))
    (k : String) (v w : β) :
    setEntry (setEntry l k v) k w = setEntry l k w := by
  induction l with
  | nil => simp [setEntry]
  | cons p rest ih =>
      by_cases h : p.1 = k
      · simp [setEntry, h]
      · simp [setEntry, h, ih]

lemma containsKey_setEntry {β : Type} (l : List (String × β))
    (k k' : String) (v : β) :
    containsKey (setEntry l k v) k' =
      if k = k' then true else containsKey l k' := by
  by_cases h : k = k'
  · subst h
    simp [containsKey, lookupEntry_setEntry_self]
  · simp [containsKey, h, lookupEntry_setEntry_ne l k k' v h]

lemma containsKey_eraseEntry {β : Type} (l : List (String × β))
    (k k' : String) :
    containsKey (eraseEntry l k) k' =
      if k = k' then false else containsKey l k' := by
  by_cases h : k = k'
  · subst h
    simp [containsKey, lookupEntry_eraseEntry_self]
  · simp [containsKey, h, lookupEntry_eraseEntry_ne l k k' h]

/-! ### Helper lemmas on queues and traces -/

lemma signal_foldl_queue (ms : List InboundMessage) (c : InterruptionChecker) :
    (ms.foldl InterruptionChecker.signal c).queue = c.queue ++ ms := by
  induction ms generalizing c with
  | nil => simp
  | cons m rest ih =>
      simp [InterruptionChecker.signal, ih]

lemma publishInboundAll_inbound (ms : List InboundMessage) (b : MessageBus) :
    (b.publishInboundAll ms).inbound = b.inbound ++ ms := by
  induction ms generalizing b with
  | nil => simp [MessageBus.publishInboundAll]
  | cons m rest ih =>
      simp [MessageBus.publishInboundAll, MessageBus.publish_inbound] at *
      simp [ih]

lemma publishOutboundAll_outbound (ms : List OutboundMessage) (b : MessageBus) :
    (b.publishOutboundAll ms).outbound = b.outbound ++ ms := by
  induction ms generalizing b with
  | nil => simp [MessageBus.publishOutboundAll]
  | cons m rest ih =>
      simp [MessageBus.publishOutboundAll, MessageBus.publish_outbound] at *
      simp [ih]

lemma consumeInboundN_take (n : Nat) (b : MessageBus) :
    (MessageBus.consumeInboundN n b).1 = b.inbound.take n := by
  induction n generalizing b with
  | zero => simp [MessageBus.consumeInboundN]
  | succ n ih =>
      match hq : b.inbound with
      | [] => simp [MessageBus.consumeInboundN, MessageBus.consume_inbound, hq]
      | m :: rest =>
          simp [MessageBus.consumeInboundN, MessageBus.consume_inbound, hq, ih]

lemma consumeOutboundN_take (n : Nat) (b : MessageBus) :
    (MessageBus.consumeOutboundN n b).1 = b.outbound.take n := by
  induction n generalizing b with
  | zero => simp [MessageBus.consumeOutboundN]
  | succ n ih =>
      match hq : b.outbound with
      | [] => simp [MessageBus.consumeOutboundN, MessageBus.consume_outbound, hq]
      | m :: rest =>
          simp [MessageBus.consumeOutboundN, MessageBus.consume_outbound, hq, ih]

lemma publishInboundAll_outbound (ms : List InboundMessage) (b : MessageBus) :
    (b.publishInboundAll ms).outbound = b.outbound := by
  induction ms generalizing b with
  | nil => simp [MessageBus.publishInboundAll]
  | cons m rest ih =>
      simp [MessageBus.publishInboundAll, MessageBus.publish_inbound] at *
      simp [ih]

lemma publishOutboundAll_inbound (ms : List OutboundMessage) (b : MessageBus) :
    (b.publishOutboundAll ms).inbound = b.inbound := by
  induction ms generalizing b with
  | nil => simp [MessageBus.publishOutboundAll]
  | cons m rest ih =>
      simp [MessageBus.publishOutboundAll, MessageBus.publish_outbound] at *
      simp [ih]

lemma containsKey_busStep_events (b : MessageBus) (op : BusOp) (id : String) :
    containsKey (busStep b op).streamDoneEvents id =
      (match op with
       | BusOp.register id' _ =>
           if id' = id then true else containsKey b.streamDoneEvents id
       | BusOp.wait id' _ =>
           if id' = id then false else containsKey b.streamDoneEvents id
       | _ => containsKey b.streamDoneEvents id) := by
  match op with
  | BusOp.register id' cb =>
      simp [busStep, MessageBus.register_stream_callback, containsKey_setEntry]
  | BusOp.getCb id' =>
      simp [busStep, MessageBus.get_stream_callback]
  | BusOp.mark id' =>
      by_cases h : containsKey b.streamDoneEvents id'
      · by_cases hid : id' = id
        · subst hid
          simp [busStep, MessageBus.mark_stream_done, h, containsKey_setEntry]
        · simp [busStep, MessageBus.mark_stream_done, h, containsKey_setEntry,
            hid]
      · simp [busStep, MessageBus.mark_stream_done, h]
  | BusOp.wait id' signaled =>
      match hl : lookupEntry b.streamDoneEvents id' with
      | none =>
          by_cases hid : id' = id
          · subst hid
            simp [busStep, MessageBus.wait_stream_done, hl, containsKey]
          · simp [busStep, MessageBus.wait_stream_done, hl, hid]
      | some isSet =>
          simp [busStep, MessageBus.wait_stream_done, hl,
            containsKey_eraseEntry]

lemma eventLiveAfter_runBusOps (ops : List BusOp) (b : MessageBus)
    (id : String) :
    containsKey (runBusOps b ops).streamDoneEvents id =
      eventLiveAfter (containsKey b.streamDoneEvents id) ops id := by
  induction ops generalizing b with
  | nil => simp [runBusOps, eventLiveAfter]
  | cons op rest ih =>
      have hstep := containsKey_busStep_events b op id
      match op with
      | BusOp.register id' cb =>
          simp only [runBusOps, eventLiveAfter, List.foldl_cons] at *
          rw [ih, hstep]
      | BusOp.getCb id' =>
          simp only [runBusOps, eventLiveAfter, List.foldl_cons] at *
          rw [ih, hstep]
      | BusOp.mark id' =>
          simp only [runBusOps, eventLiveAfter, List.foldl_cons] at *
          rw [ih, hstep]
      | BusOp.wait id' signaled =>
          simp only [runBusOps, eventLiveAfter, List.foldl_cons] at *
          rw [ih, hstep]

/-! ### Claim theorems -/

/-- C1: `wait_stream_done` always returns a boolean and never raises (it is
a total function here): with no registered completion-signal entry for the
id it returns `True` immediately and leaves the state untouched; if the
event was already set, or `mark_stream_done` sets it before the timeout
(the `signaled` oracle), it returns `True`; if the timeout elapses with no
completion it returns `False` — never an exception. -/
theorem wait_stream_done_total_spec (b : MessageBus) (id : String)
    (signaled : Bool) :
    (lookupEntry b.streamDoneEvents id = none →
        b.wait_stream_done id signaled = (true, b)) ∧
    (lookupEntry b.streamDoneEvents id = some true →
        (b.wait_stream_done id signaled).1 = true) ∧
    (lookupEntry b.streamDoneEvents id = some false → signaled = true →
        (b.wait_stream_done id signaled).1 = true) ∧
    (lookupEntry b.streamDoneEvents id = some false → signaled = false →
        (b.wait_stream_done id signaled).1 = false) := by
  refine ⟨?_, ?_, ?_, ?_⟩ <;> intros <;>
    simp_all [MessageBus.wait_stream_done]

/-- C1 witness: a registered stream signaled before the timeout yields
`True`, one that times out yields `False`, and an unregistered id yields
`True` at once with the bus unchanged. -/
theorem wait_stream_done_total_spec_witness :
    ((MessageBus.init.register_stream_callback "s" 7).wait_stream_done
        "s" true).1 = true ∧
    ((MessageBus.init.register_stream_callback "s" 7).wait_stream_done
        "s" false).1 = false ∧
    MessageBus.init.wait_stream_done "nope" false = (true, MessageBus.init) :=
  ⟨(wait_stream_done_total_spec _ "s" true).2.2.1 (by decide) rfl,
   (wait_stream_done_total_spec _ "s" false).2.2.2 (by decide) rfl,
   (wait_stream_done_total_spec MessageBus.init "nope" false).1 (by decide)⟩

/-- C2 counterexample: after `register_stream_callback "s"` followed by
`mark_stream_done "s"` the stream has been marked complete, yet the
completion-signal entry for `"s"` still remains — `mark_stream_done` sets
the event but never removes the registry entry, so the claim as stated
(entries are gone once each registered stream was marked complete) is
false. -/
theorem mark_leaves_completion_entry :
    containsKey (runBusOps MessageBus.init
        [BusOp.register "s" 0, BusOp.mark "s"]).streamDoneEvents "s"
      = true := by decide

/-- C2 amended: completion-signal entries are removed once a waiter
returns, not when the stream is marked: for any trace of registry calls in
which every registration of an id is followed by a `wait_stream_done` call
on that id (no registration left "live", as tracked by `eventLiveAfter`),
no completion-signal entry remains for that id — whether the waiter
observed completion or timed out. -/
theorem completion_entries_cleared_after_wait (ops : List BusOp)
    (id : String) (h : eventLiveAfter false ops id = false) :
    containsKey (runBusOps MessageBus.init ops).streamDoneEvents id
      = false := by
  have hrun := eventLiveAfter_runBusOps ops MessageBus.init id
  have h0 : containsKey MessageBus.init.streamDoneEvents id = false := rfl
  rw [hrun, h0]
  exact h

/-- C2 witness: the trace register / mark / wait leaves no
completion-signal entry. -/
theorem completion_entries_cleared_after_wait_witness :
    eventLiveAfter false
        [BusOp.register "s" 0, BusOp.mark "s", BusOp.wait "s" true] "s"
      = false ∧
    containsKey (runBusOps MessageBus.init
        [BusOp.register "s" 0, BusOp.mark "s",
         BusOp.wait "s" true]).streamDoneEvents "s" = false :=
  ⟨by decide,
   completion_entries_cleared_after_wait _ "s" (by decide)⟩

/-- C3 counterexample: the source checks `role == "tool"` before
`tool_calls`, and tests `tool_calls` for truthiness — so a dict with role
`"tool"` and a non-empty `tool_calls` yields TOOL_RESULT (the claim says
TOOL_CALL), and a dict with an empty `tool_calls` list yields TEXT (the
claim says presence of `tool_calls`, even empty, yields TOOL_CALL). -/
theorem from_dict_shape_counterexample :
    (AgentMessage.from_dict
        { role := "tool",
          tool_calls := some [{ payload := "tc" }] }).msg_type
      = MessageType.TOOL_RESULT ∧
    (AgentMessage.from_dict
        { role := "user", tool_calls := some [] }).msg_type
      = MessageType.TEXT := by decide

/-- C3 amended: `from_dict` infers `msg_type` from shape with role
`"tool"` taking precedence: role `"tool"` yields TOOL_RESULT; otherwise a
non-empty `tool_calls` yields TOOL_CALL; otherwise role `"system"` yields
SYSTEM; otherwise TEXT — equivalently, it agrees with the spec-worded rule
`specInferredMsgType`. -/
theorem from_dict_msg_type_inference (d : LLMDict) :
    (AgentMessage.from_dict d).msg_type = specInferredMsgType d ∧
    (d.role = "tool" →
        (AgentMessage.from_dict d).msg_type = MessageType.TOOL_RESULT) ∧
    (d.role ≠ "tool" → optListTruthy d.tool_calls = true →
        (AgentMessage.from_dict d).msg_type = MessageType.TOOL_CALL) ∧
    (d.role ≠ "tool" → optListTruthy d.tool_calls = false →
        d.role = "system" →
        (AgentMessage.from_dict d).msg_type = MessageType.SYSTEM) ∧
    (d.role ≠ "tool" → optListTruthy d.tool_calls = false →
        d.role ≠ "system" →
        (AgentMessage.from_dict d).msg_type = MessageType.TEXT) := by
  refine ⟨rfl, ?_, ?_, ?_, ?_⟩ <;> intros <;>
    simp_all [AgentMessage.from_dict, specInferredMsgType]

/-- C3 witness: a non-tool dict with a non-empty `tool_calls` list is
inferred as TOOL_CALL. -/
theorem from_dict_msg_type_inference_witness :
    (AgentMessage.from_dict
        { role := "assistant",
          tool_calls := some [{ payload := "tc" }] }).msg_type
      = MessageType.TOOL_CALL :=
  (from_dict_msg_type_inference _).2.2.1 (by decide) (by decide)

/-- C4 counterexample: a message whose `tool_calls` is set to the empty
list has `tool_calls` set (non-`None`), yet `llm_dict` omits the
`tool_calls` key — the source guard `if self.tool_calls:` is a truthiness
test, so the claim's "with tool_calls set, the payload includes
tool_calls" fails at the empty list. -/
theorem llm_dict_empty_tool_calls_omitted :
    ({ role := "assistant", content := DVal.nil,
       tool_calls := some [] } : AgentMessage).tool_calls.isSome = true ∧
    "tool_calls" ∉
      (({ role := "assistant", content := DVal.nil,
          tool_calls := some [] } : AgentMessage).llm_dict).map Prod.fst :=
  by decide

/-- C4 amended: for every `AgentMessage`, the keys of `llm_dict` are a
subset of role / content / tool_calls / tool_call_id / name /
reasoning_content, with role and content always present and no artifact,
tags or metadata key ever appearing; and for a message whose `tool_calls`
is set to a non-empty list, the payload includes `tool_calls`. -/
theorem llm_dict_key_discipline (m : AgentMessage) :
    (∀ k ∈ m.llm_dict.map Prod.fst, k ∈ llmAllowedKeys) ∧
    "role" ∈ m.llm_dict.map Prod.fst ∧
    "content" ∈ m.llm_dict.map Prod.fst ∧
    "artifact" ∉ m.llm_dict.map Prod.fst ∧
    "tags" ∉ m.llm_dict.map Prod.fst ∧
    "metadata" ∉ m.llm_dict.map Prod.fst ∧
    (∀ tc tcs, m.tool_calls = some (tc :: tcs) →
        "tool_calls" ∈ m.llm_dict.map Prod.fst) := by
  cases htc : optListTruthy m.tool_calls <;>
  cases hid : optStrTruthy m.tool_call_id <;>
  cases hnm : optStrTruthy m.tool_name <;>
  cases hrc : m.reasoning_content <;>
    simp_all [AgentMessage.llm_dict, llmAllowedKeys, optListTruthy]

/-- C4 witness: with a one-element `tool_calls`, `llm_dict` carries the
`tool_calls` key. -/
theorem llm_dict_key_discipline_witness :
    "tool_calls" ∈
      (({ role := "assistant", content := DVal.nil,
          tool_calls := some [{ payload := "x" }] } :
            AgentMessage).llm_dict).map Prod.fst :=
  (llm_dict_key_discipline _).2.2.2.2.2.2 { payload := "x" } [] rfl

/-- C5: `drain_all` removes and returns every queued message in FIFO
order; afterwards `has_pending` is false; and starting from a drained
checker, after any sequence of `signal` calls the drained list is exactly
those messages in call order (in particular its length is the number of
`signal` calls since the last drain). -/
theorem drain_all_complete :
    (∀ c : InterruptionChecker,
        (c.drain_all).1 = c.queue ∧
        ((c.drain_all).2).has_pending = false) ∧
    (∀ ms : List InboundMessage,
        ((ms.foldl InterruptionChecker.signal
            InterruptionChecker.init).drain_all).1 = ms ∧
        ((ms.foldl InterruptionChecker.signal
            InterruptionChecker.init).drain_all).1.length = ms.length) := by
  constructor
  · intro c
    exact ⟨rfl, rfl⟩
  · intro ms
    have h := signal_foldl_queue ms InterruptionChecker.init
    have h1 : ((ms.foldl InterruptionChecker.signal
        InterruptionChecker.init).drain_all).1 = ms := by
      simpa [InterruptionChecker.drain_all, InterruptionChecker.init] using h
    exact ⟨h1, by rw [h1]⟩

/-- C6 counterexample: Python `[-0:]` is `[0:]`, the whole list — so on
the spec's 5-message scenario (artifacts at indices 1, 3, 4) the call with
`n = 0` returns all three artifact messages, not the last 0 entries
(which would be the empty list), refuting the claim's "for every n". -/
theorem get_latest_artifacts_zero_spec_violation :
    AgentMessage.get_latest_artifacts exampleMessages 0 ≠ [] ∧
    (AgentMessage.get_latest_artifacts exampleMessages 0).length = 3 := by
  decide

/-- C6 amended: for every `n ≥ 1`, `get_latest_artifacts` returns the last
`n` entries of the artifact subsequence (`List.rtake`, taking from the
tail), and when fewer than `n` artifact messages exist it returns all of
them. -/
theorem get_latest_artifacts_window (msgs : List AgentMessage) (n : Nat)
    (h : 1 ≤ n) :
    AgentMessage.get_latest_artifacts msgs n
        = (AgentMessage.get_artifacts msgs).rtake n ∧
    ((AgentMessage.get_artifacts msgs).length ≤ n →
        AgentMessage.get_latest_artifacts msgs n
          = AgentMessage.get_artifacts msgs) := by
  have hn : n ≠ 0 := by omega
  constructor
  · simp [AgentMessage.get_latest_artifacts, hn, List.rtake]
  · intro hle
    simp [AgentMessage.get_latest_artifacts, hn,
      Nat.sub_eq_zero_of_le hle]

/-- C6 witness: the spec's scenario — 5 messages with artifacts at indices
1, 3 and 4; `n = 2` yields the artifact messages from indices 3 and 4 in
that order. -/
theorem get_latest_artifacts_window_witness :
    AgentMessage.get_latest_artifacts exampleMessages 2
        = (AgentMessage.get_artifacts exampleMessages).rtake 2 ∧
    AgentMessage.get_latest_artifacts exampleMessages 2
        = [ { role := "assistant", content := DVal.str "m3",
              artifact := some { id := "a3" } },
            { role := "assistant", content := DVal.str "m4",
              artifact := some { id := "a4" } } ] :=
  ⟨(get_latest_artifacts_window exampleMessages 2 (by decide)).1,
   by decide⟩

/-- C7 counterexample: `check` is implemented with `get_nowait`, which
dequeues — on a one-message queue it returns that message, but afterwards
the queue is empty (`has_pending` is false) and the state has changed, so
the returned message is no longer pending, refuting "leaves the queue's
contents unchanged". -/
theorem check_removes_message :
    ((InterruptionChecker.mk [InboundMessage.mk "hello"]).check).1
        = some (InboundMessage.mk "hello") ∧
    ((InterruptionChecker.mk [InboundMessage.mk "hello"]).check).2.has_pending
        = false ∧
    ((InterruptionChecker.mk [InboundMessage.mk "hello"]).check).2
        ≠ InterruptionChecker.mk [InboundMessage.mk "hello"] := by
  decide

/-- C7 amended: `check` is a non-blocking pop: it returns the single
oldest pending message — `None` when the queue is empty — and removes it
from the queue (the remaining queue is the tail). -/
theorem check_pops_oldest (c : InterruptionChecker) :
    (c.check).1 = c.queue.head? ∧ ((c.check).2).queue = c.queue.tail := by
  cases hq : c.queue with
  | nil => simp [InterruptionChecker.check, hq]
  | cons m rest => simp [InterruptionChecker.check, hq]

/-- C8: `mark_stream_done` is total and idempotent: on an unregistered id
it is a no-op leaving the bus exactly as it was; on a registered id it
sets the completion signal; and a second call leaves the state exactly as
the first left it. -/
theorem mark_stream_done_idempotent (b : MessageBus) (id : String) :
    (lookupEntry b.streamDoneEvents id = none → b.mark_stream_done id = b) ∧
    (containsKey b.streamDoneEvents id = true →
        lookupEntry (b.mark_stream_done id).streamDoneEvents id
          = some true) ∧
    (b.mark_stream_done id).mark_stream_done id = b.mark_stream_done id := by
  refine ⟨?_, ?_, ?_⟩
  · intro h
    simp [MessageBus.mark_stream_done, containsKey, h]
  · intro h
    simp [MessageBus.mark_stream_done, h, lookupEntry_setEntry_self]
  · by_cases h : containsKey b.streamDoneEvents id
    · have h2 : containsKey (setEntry b.streamDoneEvents id true) id
          = true := by simp [containsKey_setEntry]
      simp [MessageBus.mark_stream_done, h, h2, setEntry_setEntry_self]
    · simp [MessageBus.mark_stream_done, h]

/-- C8 witness: marking an unregistered id is a no-op, and marking a
registered id sets its completion signal. -/
theorem mark_stream_done_idempotent_witness :
    MessageBus.init.mark_stream_done "ghost" = MessageBus.init ∧
    lookupEntry ((MessageBus.init.register_stream_callback
        "s" 0).mark_stream_done "s").streamDoneEvents "s" = some true :=
  ⟨(mark_stream_done_idempotent MessageBus.init "ghost").1 (by decide),
   (mark_stream_done_idempotent _ "s").2.1 (by decide)⟩

/-- C9: each bus queue is FIFO, independently: publishing any `N` messages
to the inbound (resp. outbound) queue of a fresh bus and then consuming
`N` times yields exactly those messages in publish order, and publishing
to one queue leaves the other untouched. -/
theorem bus_queues_fifo (ms : List InboundMessage)
    (ns : List OutboundMessage) :
    (MessageBus.consumeInboundN ms.length
        (MessageBus.init.publishInboundAll ms)).1 = ms ∧
    (MessageBus.consumeOutboundN ns.length
        (MessageBus.init.publishOutboundAll ns)).1 = ns ∧
    (MessageBus.init.publishInboundAll ms).outbound = [] ∧
    (MessageBus.init.publishOutboundAll ns).inbound = [] := by
  refine ⟨?_, ?_, ?_, ?_⟩
  · rw [consumeInboundN_take, publishInboundAll_inbound]
    simp [MessageBus.init]
  · rw [consumeOutboundN_take, publishOutboundAll_outbound]
    simp [MessageBus.init]
  · rw [publishInboundAll_outbound]
    rfl
  · rw [publishOutboundAll_inbound]
    rfl

/-- C10: `get_latest_artifacts(messages, 0)` returns the entire artifact
subsequence — the same result as `get_artifacts` — and for every `n ≥ 1`
it returns exactly the last `min n (count)` artifact messages: a suffix of
the artifact subsequence of that length. -/
theorem get_latest_artifacts_zero_returns_all (msgs : List AgentMessage)
    (n : Nat) :
    AgentMessage.get_latest_artifacts msgs 0
        = AgentMessage.get_artifacts msgs ∧
    (1 ≤ n →
        AgentMessage.get_latest_artifacts msgs n
            <:+ AgentMessage.get_artifacts msgs ∧
        (AgentMessage.get_latest_artifacts msgs n).length
            = min n (AgentMessage.get_artifacts msgs).length) := by
  constructor
  · simp [AgentMessage.get_latest_artifacts]
  · intro h
    have hn : n ≠ 0 := by omega
    constructor
    · simp only [AgentMessage.get_latest_artifacts, hn, if_false,
        reduceIte]
      exact ⟨(AgentMessage.get_artifacts msgs).take
          ((AgentMessage.get_artifacts msgs).length - n),
        List.take_append_drop _ _⟩
    · simp [AgentMessage.get_latest_artifacts, hn, List.length_drop]
      omega

/-- C10 witness: on the 5-message scenario, `n = 0` yields the whole
artifact subsequence and `n = 2` yields a window of length
`min 2 3 = 2`. -/
theorem get_latest_artifacts_zero_returns_all_witness :
    AgentMessage.get_latest_artifacts exampleMessages 0
        = AgentMessage.get_artifacts exampleMessages ∧
    (AgentMessage.get_latest_artifacts exampleMessages 2).length
        = min 2 (AgentMessage.get_artifacts exampleMessages).length :=
  ⟨(get_latest_artifacts_zero_returns_all exampleMessages 2).1,
   ((get_latest_artifacts_zero_returns_all exampleMessages 2).2
      (by decide)).2⟩

end Nanobot
